import Mathlib

/-!
Verification of the repodata fetch orchestration core (`src/fetch-repodata.py`).

The Python program is shallowly embedded:
* Python `dict`s become association lists (`List (String × β)`) with
  first-match lookup (`dlookup`) and in-place update (`dictSet`), mirroring
  Python's insertion-order-preserving, key-replacing semantics.
* A repodata document (`RDoc`) maps top-level string keys to either a
  sub-mapping of package entries (`RVal.dict`) or some other opaque value
  (`RVal.leaf`); package metadata values are an abstract type `α`.
* Fallible operations return `Option`/`Except`; code paths that would raise a
  Python exception return the error constructor.
* Network and clock inputs are parameters (response oracles), so a run is a
  pure function of those inputs.
-/

deriving instance DecidableEq for Except

namespace FetchRepodata

/-! ## Python `dict` model: association lists, first-match lookup, in-place update -/

variable {α : Type} {β : Type}

/-- Python `d[k]` (as `Option`): the first binding of `k` wins. -/
def dlookup (k : String) : List (String × β) → Option β
  | [] => none
  | (k', v) :: rest => if k' = k then some v else dlookup k rest

/-- Python `d[k] = v`: replace the binding in place if present, else append. -/
def dictSet : List (String × β) → String → β → List (String × β)
  | [], k, v => [(k, v)]
  | (k', v') :: rest, k, v =>
      if k' = k then (k, v) :: rest else (k', v') :: dictSet rest k v

theorem dlookup_dictSet_self (d : List (String × β)) (k : String) (v : β) :
    dlookup k (dictSet d k v) = some v := by
  induction d with
  | nil => simp [dictSet, dlookup]
  | cons kv rest ih =>
    obtain ⟨k', v'⟩ := kv
    by_cases hk : k' = k
    · subst hk; simp [dictSet, dlookup]
    · simp [dictSet, dlookup, hk, ih]

theorem dlookup_dictSet_ne (d : List (String × β)) {j k : String} (hj : j ≠ k) (v : β) :
    dlookup j (dictSet d k v) = dlookup j d := by
  induction d with
  | nil => simp [dictSet, dlookup, Ne.symm hj]
  | cons kv rest ih =>
    obtain ⟨k', v'⟩ := kv
    by_cases hk : k' = k
    · subst hk; simp [dictSet, dlookup, Ne.symm hj]
    · simp [dictSet, dlookup, hk, ih]

theorem dictSet_eq_of_dlookup {d : List (String × β)} {k : String} {v : β}
    (h : dlookup k d = some v) : dictSet d k v = d := by
  induction d with
  | nil => simp [dlookup] at h
  | cons kv rest ih =>
    obtain ⟨k', v'⟩ := kv
    by_cases hk : k' = k
    · subst hk
      simp [dlookup] at h
      simp [dictSet, h]
    · simp [dlookup, hk] at h
      simp [dictSet, hk, ih h]

/-! ## Repodata documents and the trim transformation (`cleanup_unneeded_info`) -/

/-- A top-level value of a repodata document: either a sub-mapping of package
entries (as under `"packages"` / `"packages.conda"`) or any other value. -/
inductive RVal (α : Type) where
  | dict : List (String × List (String × α)) → RVal α
  | leaf : α → RVal α
deriving DecidableEq

/-- A repodata document: a Python dict from top-level keys to values. -/
abbrev RDoc (α : Type) := List (String × RVal α)

/-- The dict comprehension
`{key: value for key, value in package.items() if key not in trim_keys}`. -/
def trimPackage (trim_keys : List String) (package : List (String × α)) :
    List (String × α) :=
  package.filter (fun kv => decide (kv.1 ∉ trim_keys))

/-- The outer dict comprehension over `repodata[packages_key].items()`. -/
def trimPackages (trim_keys : List String)
    (packages : List (String × List (String × α))) :
    List (String × List (String × α)) :=
  packages.map (fun fp => (fp.1, trimPackage trim_keys fp.2))

/-- The loop list `["packages", "packages.conda"]`. -/
def packages_keys : List String := ["packages", "packages.conda"]

/-- One iteration of the `for packages_key in [...]` loop: reads from the
original document, writes into the output copy.  `none` models the Python
`AttributeError` raised when the value under the key is not a mapping. -/
def cleanupStep (trim_keys : List String) (repodata out : RDoc α) (pk : String) :
    Option (RDoc α) :=
  match dlookup pk repodata with
  | none => some out
  | some (RVal.leaf _) => none
  | some (RVal.dict pkgs) => some (dictSet out pk (RVal.dict (trimPackages trim_keys pkgs)))

/-- Model of `cleanup_unneeded_info(repodata, trim_keys)` from `src/fetch-repodata.py`:
returns the input unmodified when `trim_keys` is falsy, else copies the
document and rebuilds both package sub-mappings with trimmed entries. -/
def cleanup_unneeded_info (repodata : RDoc α) (trim_keys : List String) :
    Option (RDoc α) :=
  if trim_keys = [] then some repodata
  else
    match cleanupStep trim_keys repodata repodata "packages" with
    | none => none
    | some out1 => cleanupStep trim_keys repodata out1 "packages.conda"

theorem mem_trimPackage {tk : List String} {p : List (String × α)} {kv : String × α}
    (h : kv ∈ trimPackage tk p) : kv ∈ p ∧ kv.1 ∉ tk := by
  simpa [trimPackage, List.mem_filter] using h

theorem trimPackage_nil (p : List (String × α)) : trimPackage [] p = p := by
  simp [trimPackage]

theorem dlookup_trimPackage_not_mem {tk : List String} {k : String} (hk : k ∉ tk)
    (p : List (String × α)) : dlookup k (trimPackage tk p) = dlookup k p := by
  induction p with
  | nil => rfl
  | cons kv rest ih =>
    obtain ⟨k', v'⟩ := kv
    by_cases hm : k' ∈ tk
    · have hne : k' ≠ k := fun he => hk (he ▸ hm)
      simp [trimPackage, List.filter_cons, hm, dlookup, hne] at ih ⊢
      exact ih
    · simp [trimPackage, List.filter_cons, hm, dlookup] at ih ⊢
      simp [ih]

theorem trimPackage_idem (tk : List String) (p : List (String × α)) :
    trimPackage tk (trimPackage tk p) = trimPackage tk p := by
  induction p with
  | nil => rfl
  | cons kv rest ih =>
    by_cases hm : kv.1 ∈ tk
    · simp [trimPackage, List.filter_cons, hm] at ih ⊢
    · simp [trimPackage, List.filter_cons, hm] at ih ⊢

theorem trimPackages_nil (pkgs : List (String × List (String × α))) :
    trimPackages [] pkgs = pkgs := by
  simp [trimPackages, trimPackage_nil]

theorem trimPackages_idem (tk : List String) (pkgs : List (String × List (String × α))) :
    trimPackages tk (trimPackages tk pkgs) = trimPackages tk pkgs := by
  simp [trimPackages, List.map_map, Function.comp, trimPackage_idem]

theorem dlookup_trimPackages (tk : List String) (f : String)
    (pkgs : List (String × List (String × α))) :
    dlookup f (trimPackages tk pkgs) = (dlookup f pkgs).map (trimPackage tk) := by
  induction pkgs with
  | nil => rfl
  | cons fp rest ih =>
    obtain ⟨f', p⟩ := fp
    simp only [trimPackages] at ih ⊢
    by_cases hf : f' = f
    · subst hf; simp [dlookup]
    · simp [dlookup, hf, ih]

theorem mem_trimPackages {tk : List String} {pkgs : List (String × List (String × α))}
    {fp : String × List (String × α)} (h : fp ∈ trimPackages tk pkgs) :
    ∃ p, (fp.1, p) ∈ pkgs ∧ fp.2 = trimPackage tk p := by
  simp only [trimPackages, List.mem_map] at h
  obtain ⟨⟨f0, p0⟩, hmem, heq⟩ := h
  subst heq
  exact ⟨p0, hmem, rfl⟩

/-- Map a top-level value the way one loop iteration of
`cleanup_unneeded_info` rewrites it (sub-mappings trimmed, others untouched). -/
def trimRVal (tk : List String) : RVal α → RVal α
  | RVal.dict pkgs => RVal.dict (trimPackages tk pkgs)
  | RVal.leaf a => RVal.leaf a

theorem cleanup_cases {tk : List String} {d t : RDoc α}
    (htk : tk ≠ []) (h : cleanup_unneeded_info d tk = some t) :
    (dlookup "packages" d = none ∧ dlookup "packages.conda" d = none ∧ t = d) ∨
    (∃ P, dlookup "packages" d = some (RVal.dict P) ∧ dlookup "packages.conda" d = none ∧
       t = dictSet d "packages" (RVal.dict (trimPackages tk P))) ∨
    (∃ Q, dlookup "packages" d = none ∧ dlookup "packages.conda" d = some (RVal.dict Q) ∧
       t = dictSet d "packages.conda" (RVal.dict (trimPackages tk Q))) ∨
    (∃ P Q, dlookup "packages" d = some (RVal.dict P) ∧
       dlookup "packages.conda" d = some (RVal.dict Q) ∧
       t = dictSet (dictSet d "packages" (RVal.dict (trimPackages tk P)))
             "packages.conda" (RVal.dict (trimPackages tk Q))) := by
  rw [cleanup_unneeded_info, if_neg htk] at h
  rcases hp : dlookup "packages" d with _ | vp
  · rw [cleanupStep, hp] at h
    simp only [] at h
    rcases hq : dlookup "packages.conda" d with _ | vq
    · rw [cleanupStep, hq] at h
      simp only [Option.some.injEq] at h
      exact Or.inl ⟨rfl, rfl, h.symm⟩
    · rcases vq with Q | a
      · rw [cleanupStep, hq] at h
        simp only [Option.some.injEq] at h
        exact Or.inr (Or.inr (Or.inl ⟨Q, rfl, rfl, h.symm⟩))
      · rw [cleanupStep, hq] at h
        simp at h
  · rcases vp with P | a
    · rw [cleanupStep, hp] at h
      simp only [] at h
      rcases hq : dlookup "packages.conda" d with _ | vq
      · rw [cleanupStep, hq] at h
        simp only [Option.some.injEq] at h
        exact Or.inr (Or.inl ⟨P, rfl, rfl, h.symm⟩)
      · rcases vq with Q | a
        · rw [cleanupStep, hq] at h
          simp only [Option.some.injEq] at h
          exact Or.inr (Or.inr (Or.inr ⟨P, Q, rfl, rfl, h.symm⟩))
        · rw [cleanupStep, hq] at h
          simp at h
    · rw [cleanupStep, hp] at h
      simp at h

theorem cleanup_frame {tk : List String} {d t : RDoc α}
    (h : cleanup_unneeded_info d tk = some t) :
    ∀ k, k ∉ packages_keys → dlookup k t = dlookup k d := by
  intro k hk
  simp only [packages_keys, List.mem_cons, List.not_mem_nil, or_false, not_or] at hk
  obtain ⟨hk1, hk2⟩ := hk
  by_cases htk : tk = []
  · rw [cleanup_unneeded_info, if_pos htk] at h
    simp only [Option.some.injEq] at h
    rw [h]
  · rcases cleanup_cases htk h with ⟨_, _, ht⟩ | ⟨P, _, _, ht⟩ | ⟨Q, _, _, ht⟩ | ⟨P, Q, _, _, ht⟩ <;>
      subst ht <;>
      simp [dlookup_dictSet_ne _ hk1, dlookup_dictSet_ne _ hk2]

theorem cleanup_dlookup {tk : List String} {d t : RDoc α} (htk : tk ≠ [])
    (h : cleanup_unneeded_info d tk = some t) :
    ∀ pk ∈ packages_keys, dlookup pk t = (dlookup pk d).map (trimRVal tk) := by
  have hne : ("packages" : String) ≠ "packages.conda" := by decide
  intro pk hpk
  simp only [packages_keys, List.mem_cons, List.not_mem_nil, or_false] at hpk
  rcases cleanup_cases htk h with ⟨h1, h2, ht⟩ | ⟨P, h1, h2, ht⟩ | ⟨Q, h1, h2, ht⟩ |
      ⟨P, Q, h1, h2, ht⟩ <;> subst ht <;> rcases hpk with hpk | hpk <;> subst hpk
  · simp [h1]
  · simp [h2]
  · simp [h1, dlookup_dictSet_self, trimRVal]
  · simp [h2, dlookup_dictSet_ne _ hne.symm, h1]
  · simp [h1, dlookup_dictSet_ne _ hne, h2]
  · simp [h2, dlookup_dictSet_self, trimRVal]
  · simp [h1, dlookup_dictSet_ne _ hne, dlookup_dictSet_self, trimRVal]
  · simp [h2, dlookup_dictSet_self, trimRVal]

theorem cleanupStep_of_dlookup_none {tk : List String} {r : RDoc α} {pk : String}
    (hl : dlookup pk r = none) (out : RDoc α) : cleanupStep tk r out pk = some out := by
  rw [cleanupStep, hl]

theorem cleanupStep_of_dlookup_trimmed {tk : List String} {r : RDoc α} {pk : String}
    {X : List (String × List (String × α))}
    (hl : dlookup pk r = some (RVal.dict (trimPackages tk X))) :
    cleanupStep tk r r pk = some r := by
  rw [cleanupStep, hl]
  simp only [Option.some.injEq]
  rw [trimPackages_idem, dictSet_eq_of_dlookup hl]

theorem cleanup_idem {tk : List String} {d t : RDoc α}
    (h : cleanup_unneeded_info d tk = some t) :
    cleanup_unneeded_info t tk = some t := by
  by_cases htk : tk = []
  · subst htk
    rw [cleanup_unneeded_info, if_pos rfl]
  · have hlook := cleanup_dlookup htk h
    have hl1 := hlook "packages" (by simp [packages_keys])
    have hl2 := hlook "packages.conda" (by simp [packages_keys])
    have hs1 : cleanupStep tk t t "packages" = some t := by
      rcases hp : dlookup "packages" d with _ | vp
      · rw [hp] at hl1
        exact cleanupStep_of_dlookup_none (by simpa using hl1) t
      · rcases vp with P | a
        · rw [hp] at hl1
          simp only [Option.map_some', trimRVal] at hl1
          exact cleanupStep_of_dlookup_trimmed hl1
        · exact absurd (cleanup_cases htk h) (by simp [hp])
    have hs2 : cleanupStep tk t t "packages.conda" = some t := by
      rcases hq : dlookup "packages.conda" d with _ | vq
      · rw [hq] at hl2
        exact cleanupStep_of_dlookup_none (by simpa using hl2) t
      · rcases vq with Q | a
        · rw [hq] at hl2
          simp only [Option.map_some', trimRVal] at hl2
          exact cleanupStep_of_dlookup_trimmed hl2
        · exact absurd (cleanup_cases htk h) (by simp [hq])
    rw [cleanup_unneeded_info, if_neg htk, hs1]
    exact hs2

/-- C3: for every trim key set and repodata document, each package entry in the
`packages` / `packages.conda` sub-mappings of the trimmed document contains no
key from the trim set; every key not in the trim set keeps its original value;
and the transformation is idempotent. -/
theorem c3_trim_properties (tk : List String) (d t : RDoc α)
    (h : cleanup_unneeded_info d tk = some t) :
    (∀ pk ∈ packages_keys, ∀ pkgs, dlookup pk t = some (RVal.dict pkgs) →
        ∀ fp ∈ pkgs, ∀ kv ∈ fp.2, kv.1 ∉ tk) ∧
    (∀ pk ∈ packages_keys, ∀ pkgs, dlookup pk d = some (RVal.dict pkgs) →
        dlookup pk t = some (RVal.dict (trimPackages tk pkgs)) ∧
        ∀ f p, dlookup f pkgs = some p →
          dlookup f (trimPackages tk pkgs) = some (trimPackage tk p) ∧
          ∀ k, k ∉ tk → dlookup k (trimPackage tk p) = dlookup k p) ∧
    cleanup_unneeded_info t tk = some t := by
  refine ⟨?_, ?_, cleanup_idem h⟩
  · intro pk hpk pkgs hl fp hfp kv hkv
    by_cases htk : tk = []
    · subst htk
      exact List.not_mem_nil _
    · rw [cleanup_dlookup htk h pk hpk] at hl
      rw [Option.map_eq_some'] at hl
      obtain ⟨x, hx, hval⟩ := hl
      rcases x with P | a
      · simp only [trimRVal, RVal.dict.injEq] at hval
        subst hval
        obtain ⟨p, _, hfp2⟩ := mem_trimPackages hfp
        rw [hfp2] at hkv
        exact (mem_trimPackage hkv).2
      · simp [trimRVal] at hval
  · intro pk hpk pkgs hl
    by_cases htk : tk = []
    · subst htk
      rw [cleanup_unneeded_info, if_pos rfl] at h
      simp only [Option.some.injEq] at h
      subst h
      refine ⟨by rw [trimPackages_nil]; exact hl, ?_⟩
      intro f p hf
      rw [trimPackages_nil, trimPackage_nil]
      exact ⟨hf, fun k _ => rfl⟩
    · refine ⟨by rw [cleanup_dlookup htk h pk hpk, hl]; rfl, ?_⟩
      intro f p hf
      refine ⟨by rw [dlookup_trimPackages, hf]; rfl, ?_⟩
      intro k hk
      exact dlookup_trimPackage_not_mem hk p

theorem c3_trim_properties_witness :
    cleanup_unneeded_info
        [("info", RVal.leaf "i"), ("packages", RVal.dict [("f1", [("name", "n")])])]
        ["md5"] =
      some [("info", RVal.leaf "i"), ("packages", RVal.dict [("f1", [("name", "n")])])] :=
  (c3_trim_properties ["md5"]
      [("info", RVal.leaf "i"),
       ("packages", RVal.dict [("f1", [("md5", "x"), ("name", "n")])])]
      [("info", RVal.leaf "i"), ("packages", RVal.dict [("f1", [("name", "n")])])]
      (by decide)).2.2

/-- C9: an empty trim key set passes the document through as-is, and for every
trim key set every top-level key other than `packages` and `packages.conda`
keeps exactly its original value. -/
theorem c9_empty_trim_and_frame (d : RDoc α) (tk : List String) :
    cleanup_unneeded_info d [] = some d ∧
    (∀ t, cleanup_unneeded_info d tk = some t →
      ∀ k, k ≠ "packages" → k ≠ "packages.conda" → dlookup k t = dlookup k d) := by
  constructor
  · rw [cleanup_unneeded_info, if_pos rfl]
  · intro t h k h1 h2
    exact cleanup_frame h k (by simp [packages_keys, h1, h2])

theorem c9_empty_trim_and_frame_witness :
    cleanup_unneeded_info ([("x", RVal.leaf "v")] : RDoc String) [] =
        some [("x", RVal.leaf "v")] ∧
    dlookup "info"
        [("info", RVal.leaf "i"), ("packages", RVal.dict [("f1", [("name", "n")])])] =
      dlookup "info"
        [("info", RVal.leaf "i"),
         ("packages", RVal.dict [("f1", [("md5", "x"), ("name", "n")])])] :=
  ⟨(c9_empty_trim_and_frame [("x", RVal.leaf "v")] []).1,
   (c9_empty_trim_and_frame
      [("info", RVal.leaf "i"),
       ("packages", RVal.dict [("f1", [("md5", "x"), ("name", "n")])])]
      ["md5"]).2
     [("info", RVal.leaf "i"), ("packages", RVal.dict [("f1", [("name", "n")])])]
     (by decide) "info" (by decide) (by decide)⟩

/-! ## Output path encoding: `urllib.parse.quote` and `re.sub("//", "%2F/", ...)` -/

/-- The always-safe characters of `urllib.parse`: ASCII letters, digits, `_.-~`. -/
def always_safe_char (c : Char) : Bool :=
  c.isAlphanum || c == '_' || c == '.' || c == '-' || c == '~'

/-- Characters kept verbatim by `urllib.parse.quote` with its default
`safe="/"` argument. -/
def quote_safe_char (c : Char) : Bool :=
  always_safe_char c || c == '/'

/-- Uppercase hexadecimal digit, as used by percent-encoding. -/
def hexDigitChar (n : Nat) : Char :=
  if n < 10 then Char.ofNat (48 + n) else Char.ofNat (55 + n)

/-- Percent (`%XX`) encoding of one byte. -/
def percentEncodeByte (b : Nat) : List Char :=
  ['%', hexDigitChar (b / 16), hexDigitChar (b % 16)]

/-- UTF-8 bytes of a Unicode code point. -/
def utf8Bytes (n : Nat) : List Nat :=
  if n < 128 then [n]
  else if n < 2048 then [192 + n / 64, 128 + n % 64]
  else if n < 65536 then [224 + n / 4096, 128 + n / 64 % 64, 128 + n % 64]
  else [240 + n / 262144, 128 + n / 4096 % 64, 128 + n / 64 % 64, 128 + n % 64]

/-- Encode one character: kept when safe, else each UTF-8 byte becomes `%XX`. -/
def quoteChar (safe : Char → Bool) (c : Char) : List Char :=
  if safe c then [c] else ((utf8Bytes c.toNat).map percentEncodeByte).flatten

/-- Model of `urllib.parse.quote` with an explicit safe-character set. -/
def urllib_quote_with (safe : Char → Bool) (s : String) : String :=
  String.mk ((s.data.map (quoteChar safe)).flatten)

/-- Model of `urllib.parse.quote(s)` with the default `safe="/"`. -/
def urllib_quote (s : String) : String :=
  urllib_quote_with quote_safe_char s

/-- Model of `re.sub("//", "%2F/", ...)`: leftmost, non-overlapping replacement. -/
def re_sub_slashes : List Char → List Char
  | [] => []
  | [c] => [c]
  | c1 :: c2 :: rest =>
    if c1 = '/' ∧ c2 = '/' then '%' :: '2' :: 'F' :: '/' :: re_sub_slashes rest
    else c1 :: re_sub_slashes (c2 :: rest)

/-- The value `output_subdir = re_sub("//", "%2F/", urllib_quote(url_prefix))` with
`url_prefix = f"{channel}/{subdir}"`. -/
def output_subdir (channel subdir : String) : String :=
  String.mk (re_sub_slashes (urllib_quote (channel ++ "/" ++ subdir)).data)

/-- Whether a string contains a raw doubled slash `//`. -/
def hasDoubleSlashChars : List Char → Bool
  | [] => false
  | [_] => false
  | c1 :: c2 :: rest =>
    if c1 = '/' ∧ c2 = '/' then true else hasDoubleSlashChars (c2 :: rest)

def hasDoubleSlash (s : String) : Bool :=
  hasDoubleSlashChars s.data

/-- Run-scoped output configuration (`OutputConfig` dataclass). -/
structure OutputConfig where
  output_root : String
  indent : Nat
  separators : String × String
  trim_keys : List String
deriving DecidableEq

/-- The path `output_file_path`, that is `output_dir + "/repodata.json"` with
`output_dir = output_config.output_root + "/" + output_subdir`. -/
def output_file_path (cfg : OutputConfig) (channel subdir : String) : String :=
  cfg.output_root ++ "/" ++ output_subdir channel subdir ++ "/repodata.json"

/-! ## Clock source: `get_ntp_time`

`datetime.fromtimestamp(ts)` converts a POSIX timestamp to the *platform's
local* date and time; the strftime format then appends the literal `+00:00`.
The local conversion is modelled by adding the platform's UTC offset
(`tz_offset_east`, in seconds east of UTC) to the timestamp before
rendering.  `response.tx_time` is modelled at second precision (`strftime`'s
`%S` drops any fractional part). -/

/-- Civil date from days since 1970-01-01 (proleptic Gregorian). -/
def civilFromDays (z : Nat) : Nat × Nat × Nat :=
  let z' := z + 719468
  let era := z' / 146097
  let doe := z' % 146097
  let yoe := (doe - doe / 1460 + doe / 36524 - doe / 146096) / 365
  let y := yoe + era * 400
  let doy := doe - (365 * yoe + yoe / 4 - yoe / 100)
  let mp := (5 * doy + 2) / 153
  let dd := doy - (153 * mp + 2) / 5 + 1
  let m := if mp < 10 then mp + 3 else mp - 9
  (if m ≤ 2 then y + 1 else y, m, dd)

def pad2 (n : Nat) : String :=
  if n < 10 then "0" ++ toString n else toString n

/-- Rendering of `time.strftime("%Y-%m-%dT%H:%M:%S+00:00")` for an epoch-seconds value. -/
def ntp_strftime (t : Nat) : String :=
  let ymd := civilFromDays (t / 86400)
  let rem := t % 86400
  toString ymd.1 ++ "-" ++ pad2 ymd.2.1 ++ "-" ++ pad2 ymd.2.2 ++ "T" ++
    pad2 (rem / 3600) ++ ":" ++ pad2 (rem / 60 % 60) ++ ":" ++ pad2 (rem % 60) ++
    "+00:00"

/-- Model of `datetime.fromtimestamp`: POSIX timestamp to platform-local wall time. -/
def fromtimestamp_local (tz_offset_east tx : Nat) : Nat :=
  tx + tz_offset_east

/-- The ordered reference-server list. -/
def ntp_pool : List String :=
  ["0.pool.ntp.org", "1.pool.ntp.org", "2.pool.ntp.org", "3.pool.ntp.org"]

/-- The `for server in ntp_pool` loop.  `net server 2` models
`client.request(server, version=4, timeout=2)`: `none` is an `NTPException`
(timeout or error, `continue`), `some tx` a response with `tx_time = tx`. -/
def get_ntp_time_go (net : String → Nat → Option Nat) (tz_offset_east : Nat) :
    List String → Except String String
  | [] => Except.error "Could not get timestamp."
  | server :: rest =>
    match net server 2 with
    | none => get_ntp_time_go net tz_offset_east rest
    | some tx =>
        Except.ok (ntp_strftime (fromtimestamp_local tz_offset_east tx))

/-- Model of `get_ntp_time()` from `src/fetch-repodata.py` (the `FetchError` it raises
on exhaustion is the `Except.error` case). -/
def get_ntp_time (net : String → Nat → Option Nat) (tz_offset_east : Nat) :
    Except String String :=
  get_ntp_time_go net tz_offset_east ntp_pool

/-- A network where only the first reference server answers, at epoch 0. -/
def c4_net : String → Nat → Option Nat :=
  fun server _ => if server = "0.pool.ntp.org" then some 0 else none

/-- C4 (failing-input evaluation): on a platform whose local timezone is
UTC+02:00 (7200 s east), an NTP transmit time of epoch 0 is rendered as
`1970-01-01T02:00:00+00:00` — the local wall time mislabelled with the fixed
`+00:00` offset — whereas with offset 0 the same instant renders as
`1970-01-01T00:00:00+00:00`.  The output therefore depends on the platform's
local timezone, i.e. `datetime.fromtimestamp` performs a local-timezone
conversion, contradicting the claim. -/
theorem c4_local_timezone_eval :
    get_ntp_time c4_net 7200 = Except.ok "1970-01-01T02:00:00+00:00" ∧
    get_ntp_time c4_net 0 = Except.ok "1970-01-01T00:00:00+00:00" ∧
    get_ntp_time (fun _ _ => none) 7200 =
      Except.error "Could not get timestamp." := by
  refine ⟨?_, ?_, ?_⟩ <;> decide

/-! ## C7: output path encoding -/

/-- Modelled from the spec: the layout
`{output_root}/{percent-encoded channel}%2F{subdir}/repodata.json`, where the
percent-encoded `channel/subdir` prefix "forms the directory under the output
root", i.e. a single path component in which every unsafe character of the
channel (including `/`) is percent-encoded and the channel/subdir separator is
the literal `%2F`. -/
def c7_spec_path (output_root channel subdir : String) : String :=
  output_root ++ "/" ++ urllib_quote_with always_safe_char channel ++ "%2F" ++
    subdir ++ "/repodata.json"

/-- C7 (counterexample): for channel `https://example.org/chan` and subdir
`linux-64` the path actually written differs from the spec's
`{output_root}/{percent-encoded channel}%2F{subdir}/repodata.json` layout:
the code keeps `/` safe during quoting and only rewrites `//` to `%2F/`, so
the channel/subdir separator stays a real `/`. -/
theorem c7_path_counterexample :
    output_file_path ⟨"out", 0, (",", ":"), []⟩ "https://example.org/chan" "linux-64" ≠
      c7_spec_path "out" "https://example.org/chan" "linux-64" := by
  decide

/-- C7 (amended): the artifact path is
`{output_root}/{re_sub("//", "%2F/", quote(channel + "/" + subdir))}/repodata.json`
— a slash-separated nested directory path in which only doubled slashes are
collapsed into `%2F/`; for channel `https://example.org/chan` and subdir
`linux-64` the encoded prefix is `https%3A%2F/example.org/chan/linux-64`,
which contains no raw unescaped `//`. -/
theorem c7_amended_path :
    (∀ root : String, ∀ indent : Nat, ∀ seps : String × String, ∀ tk : List String,
       output_file_path ⟨root, indent, seps, tk⟩ "https://example.org/chan" "linux-64" =
         root ++ "/" ++ "https%3A%2F/example.org/chan/linux-64" ++ "/repodata.json") ∧
    hasDoubleSlash (output_subdir "https://example.org/chan" "linux-64") = false := by
  constructor
  · intro root indent seps tk
    have h : output_subdir "https://example.org/chan" "linux-64" =
        "https%3A%2F/example.org/chan/linux-64" := by decide
    rw [output_file_path, h]
  · decide

/-! ## Repodata worker: `fetch_repodata` -/

/-- An HTTP response as the worker observes it: the status code and the result
of `json_loads(response.text)` (`Except.error` models a JSON parse failure,
which raises in Python). -/
structure HttpResponse (α : Type) where
  status : Nat
  body : Except String (RDoc α)

/-- A file written by the program, tagged by role: a timestamp companion file
(written with `print`, so with a trailing newline) or a JSON data artifact. -/
inductive FileWrite where
  | time (path : String) (content : String)
  | data (path : String) (content : String)
deriving DecidableEq

/-- The value of one worker task: the `(channel, subdir, success)` tuple the
Python function returns, together with the files it wrote and the warnings it
logged. -/
structure WorkerResult where
  channel : String
  subdir : String
  success : Bool
  writes : List FileWrite
  warnings : List String
deriving DecidableEq

/-- An exception escaping `fetch_repodata`. -/
inductive WorkerErr where
  /-- The case that `session.get` itself raised (retries exhausted, connection error). -/
  | requestFailure (msg : String)
  /-- a non-404 `HTTPError` from `raise_for_status`, re-raised. -/
  | httpError (status : Nat)
  /-- The case that `json_loads` raised. -/
  | jsonError (msg : String)
  /-- The case that `repodata[packages_key].items()` failed: the value is not a mapping. -/
  | typeError
deriving DecidableEq

/-- Model of `fetch_repodata(session, timestamp, output_config, channel, subdir)` from
`src/fetch-repodata.py`.  `get_result` is the outcome of `session.get(url)`;
`dump_json` models `json.dump(..., sort_keys=True, indent=output_config.indent,
separators=output_config.separators)` as an opaque serializer.
`raise_for_status` raises `HTTPError` exactly for statuses in `[400, 600)`. -/
def fetch_repodata (dump_json : RDoc α → String) (timestamp : String)
    (output_config : OutputConfig) (channel subdir : String)
    (get_result : Except String (HttpResponse α)) :
    Except WorkerErr WorkerResult :=
  match get_result with
  | Except.error e => Except.error (WorkerErr.requestFailure e)
  | Except.ok response =>
    if 400 ≤ response.status ∧ response.status < 600 then
      if response.status = 404 then
        Except.ok
          ⟨channel, subdir, false, [],
           ["No repodata.json found for subdir " ++ subdir ++ " in channel " ++
             channel ++ " ."]⟩
      else Except.error (WorkerErr.httpError response.status)
    else
      match response.body with
      | Except.error e => Except.error (WorkerErr.jsonError e)
      | Except.ok input_repodata =>
        match cleanup_unneeded_info input_repodata output_config.trim_keys with
        | none => Except.error WorkerErr.typeError
        | some output_repodata =>
          let p := output_file_path output_config channel subdir
          Except.ok
            ⟨channel, subdir, true,
             [FileWrite.time (p ++ ".time") (timestamp ++ "\n"),
              FileWrite.data p (dump_json output_repodata)], []⟩

theorem fetch_repodata_ok_shape {dump_json : RDoc α → String} {timestamp : String}
    {cfg : OutputConfig} {channel subdir : String}
    {get_result : Except String (HttpResponse α)} {r : WorkerResult}
    (h : fetch_repodata dump_json timestamp cfg channel subdir get_result =
      Except.ok r) :
    r.channel = channel ∧ r.subdir = subdir ∧
    ((r.success = false ∧ r.writes = []) ∨
     (r.success = true ∧
      ∃ content,
        r.writes =
          [FileWrite.time (output_file_path cfg channel subdir ++ ".time")
             (timestamp ++ "\n"),
           FileWrite.data (output_file_path cfg channel subdir) content])) := by
  rcases get_result with e | response
  · simp [fetch_repodata] at h
  · rw [fetch_repodata] at h
    by_cases h4xx : 400 ≤ response.status ∧ response.status < 600
    · rw [if_pos h4xx] at h
      by_cases h404 : response.status = 404
      · rw [if_pos h404] at h
        simp only [Except.ok.injEq] at h
        subst h
        exact ⟨rfl, rfl, Or.inl ⟨rfl, rfl⟩⟩
      · rw [if_neg h404] at h
        simp at h
    · rw [if_neg h4xx] at h
      split at h
      · simp at h
      · split at h
        · simp at h
        · simp only [Except.ok.injEq] at h
          subst h
          exact ⟨rfl, rfl, Or.inr ⟨rfl, _, rfl⟩⟩

/-- C2: given an HTTP response, the worker returns an outcome with
`success = false` exactly when the status is 404 (logging a warning and
writing nothing), and any other HTTP-error status in `[400, 600)` raises
(`HTTPError` re-raised) instead of returning an outcome. -/
theorem c2_worker_404_outcome (dump_json : RDoc α → String) (timestamp : String)
    (cfg : OutputConfig) (channel subdir : String) (resp : HttpResponse α) :
    ((∃ r, fetch_repodata dump_json timestamp cfg channel subdir (Except.ok resp) =
        Except.ok r ∧ r.success = false) ↔ resp.status = 404) ∧
    (resp.status = 404 →
      fetch_repodata dump_json timestamp cfg channel subdir (Except.ok resp) =
        Except.ok ⟨channel, subdir, false, [],
          ["No repodata.json found for subdir " ++ subdir ++ " in channel " ++
            channel ++ " ."]⟩) ∧
    (400 ≤ resp.status → resp.status < 600 → resp.status ≠ 404 →
      fetch_repodata dump_json timestamp cfg channel subdir (Except.ok resp) =
        Except.error (WorkerErr.httpError resp.status)) := by
  have h404 : resp.status = 404 →
      fetch_repodata dump_json timestamp cfg channel subdir (Except.ok resp) =
        Except.ok ⟨channel, subdir, false, [],
          ["No repodata.json found for subdir " ++ subdir ++ " in channel " ++
            channel ++ " ."]⟩ := by
    intro h4
    rw [fetch_repodata, if_pos (by rw [h4]; exact ⟨by norm_num, by norm_num⟩),
      if_pos h4]
  refine ⟨⟨?_, fun h4 => ⟨_, h404 h4, rfl⟩⟩, h404, ?_⟩
  · rintro ⟨r, hr, hs⟩
    by_cases h4xx : 400 ≤ resp.status ∧ resp.status < 600
    · by_cases h4 : resp.status = 404
      · exact h4
      · rw [fetch_repodata, if_pos h4xx, if_neg h4] at hr
        simp at hr
    · exfalso
      rw [fetch_repodata, if_neg h4xx] at hr
      split at hr
      · simp at hr
      · split at hr
        · simp at hr
        · simp only [Except.ok.injEq] at hr
          subst hr
          simp at hs
  · intro h1 h2 h3
    rw [fetch_repodata, if_pos ⟨h1, h2⟩, if_neg h3]

theorem c2_worker_404_outcome_witness :
    fetch_repodata (fun _ : RDoc String => "J") "T" ⟨"out", 0, (",", ":"), ["md5"]⟩
        "chanA" "noarch" (Except.ok ⟨404, Except.ok []⟩) =
      Except.ok ⟨"chanA", "noarch", false, [],
        ["No repodata.json found for subdir " ++ "noarch" ++ " in channel " ++
          "chanA" ++ " ."]⟩ ∧
    fetch_repodata (fun _ : RDoc String => "J") "T" ⟨"out", 0, (",", ":"), ["md5"]⟩
        "chanA" "noarch" (Except.ok ⟨500, Except.ok []⟩) =
      Except.error (WorkerErr.httpError 500) :=
  ⟨(c2_worker_404_outcome _ _ _ _ _ _).2.1 rfl,
   (c2_worker_404_outcome _ _ _ _ _ _).2.2 (by norm_num) (by norm_num) (by norm_num)⟩

/-- C10: within one worker, the timestamp companion file is written strictly
before the main artifact: every prefix of the worker's write sequence that
contains the `repodata.json` data write also contains the corresponding
`repodata.json.time` write. -/
theorem c10_time_written_before_data (dump_json : RDoc α → String)
    (timestamp : String) (cfg : OutputConfig) (channel subdir : String)
    (get_result : Except String (HttpResponse α)) (r : WorkerResult)
    (h : fetch_repodata dump_json timestamp cfg channel subdir get_result =
      Except.ok r) :
    ∀ n p c, FileWrite.data p c ∈ r.writes.take n →
      ∃ tc, FileWrite.time (p ++ ".time") tc ∈ r.writes.take n := by
  obtain ⟨-, -, hshape⟩ := fetch_repodata_ok_shape h
  rcases hshape with ⟨-, hw⟩ | ⟨-, content, hw⟩ <;> intro n p c hmem <;> rw [hw] at hmem
  · simp at hmem
  · rw [hw]
    match n with
    | 0 => simp at hmem
    | 1 => simp [List.take] at hmem
    | (m + 2) =>
      simp only [List.take_succ_cons, List.take_nil, List.mem_cons,
        List.not_mem_nil, or_false] at hmem ⊢
      rcases hmem with hmem | hmem
      · exact absurd hmem (by simp)
      · simp only [FileWrite.data.injEq] at hmem
        obtain ⟨hp, -⟩ := hmem
        subst hp
        exact ⟨timestamp ++ "\n", Or.inl rfl⟩

theorem c10_time_written_before_data_witness :
    ∃ tc, FileWrite.time ("out/chanA/noarch/repodata.json" ++ ".time") tc ∈
      List.take 2
        [FileWrite.time "out/chanA/noarch/repodata.json.time" "T\n",
         FileWrite.data "out/chanA/noarch/repodata.json" "J"] :=
  c10_time_written_before_data (fun _ : RDoc String => "J") "T"
    ⟨"out", 0, (",", ":"), ["md5"]⟩ "chanA" "noarch"
    (Except.ok ⟨200, Except.ok []⟩)
    ⟨"chanA", "noarch", true,
     [FileWrite.time "out/chanA/noarch/repodata.json.time" "T\n",
      FileWrite.data "out/chanA/noarch/repodata.json" "J"], []⟩
    (by decide) 2 "out/chanA/noarch/repodata.json" "J" (by decide)

/-! ## Fetch orchestrator: `fetch` -/

/-- An exception escaping `fetch` (all three are Python exceptions that abort
the run; `clock` and `fetchError` are both raised as `FetchError` in the
source). -/
inductive RunError where
  /-- The case that `get_ntp_time` raised (`FetchError("Could not get timestamp.")`). -/
  | clock (msg : String)
  /-- The case that `future.result()` re-raised a worker exception. -/
  | worker (e : WorkerErr)
  /-- the completeness invariant failed:
  `FetchError("No repodata.json found for any subdir in channels %s .", ...)`,
  naming the unfetched channels. -/
  | fetchError (unfetched : List String)
deriving DecidableEq

/-- Removal of one channel from the unfetched set of channels, modelled on a
duplicate-free list. -/
def removeChannel (unfetched : List String) (c : String) : List String :=
  unfetched.filter (fun c' => decide (c' ≠ c))

/-- The `for future in as_completed(futures)` loop: `future.result()`
re-raises the first worker exception; otherwise a successful outcome removes
its channel from the unfetched set.  Returns the final unfetched set. -/
def processFutures :
    List String → List (Except WorkerErr WorkerResult) → Except WorkerErr (List String)
  | unfetched, [] => Except.ok unfetched
  | _, Except.error e :: _ => Except.error e
  | unfetched, Except.ok res :: rest =>
    processFutures (if res.success then removeChannel unfetched res.channel else unfetched)
      rest

/-- The task submission loop: `for subdir in subdirs: for channel in channels`,
one `(channel, subdir)` target per task. -/
def targets (channels subdirs : List String) : List (String × String) :=
  subdirs.flatMap (fun subdir => channels.map (fun channel => (channel, subdir)))

/-- The results of all submitted worker tasks, one per target, computed from
the per-target response oracle `respond`. -/
def runResults (dump_json : RDoc α → String) (timestamp : String)
    (cfg : OutputConfig) (channels subdirs : List String)
    (respond : String → String → Except String (HttpResponse α)) :
    List (Except WorkerErr WorkerResult) :=
  (targets channels subdirs).map
    (fun t => fetch_repodata dump_json timestamp cfg t.1 t.2 (respond t.1 t.2))

/-- The files one task wrote (a task that raised before its writes wrote
nothing). -/
def workerWrites1 : Except WorkerErr WorkerResult → List FileWrite
  | Except.ok r => r.writes
  | Except.error _ => []

/-- All files written by worker tasks in one run (the process pool's context
manager waits for every submitted task, so even when the orchestrator aborts,
every task's writes have been performed). -/
def runWrites (dump_json : RDoc α → String) (timestamp : String)
    (cfg : OutputConfig) (channels subdirs : List String)
    (respond : String → String → Except String (HttpResponse α)) : List FileWrite :=
  ((runResults dump_json timestamp cfg channels subdirs respond).map workerWrites1).flatten

/-- The body of `fetch` after the timestamp was obtained: dispatch all tasks,
collect outcomes, raise `FetchError` if some channel never succeeded, and only
otherwise write the run-level `{output_root}/.time` file.  The result is the
list of files written together with the exception that aborted the run, if
any. -/
def fetchBody (dump_json : RDoc α → String) (timestamp : String)
    (cfg : OutputConfig) (channels subdirs : List String)
    (respond : String → String → Except String (HttpResponse α)) :
    List FileWrite × Option RunError :=
  match processFutures channels.dedup
      (runResults dump_json timestamp cfg channels subdirs respond) with
  | Except.error e =>
    (runWrites dump_json timestamp cfg channels subdirs respond,
     some (RunError.worker e))
  | Except.ok unfetched =>
    if unfetched = [] then
      (runWrites dump_json timestamp cfg channels subdirs respond ++
        [FileWrite.time (cfg.output_root ++ "/.time") (timestamp ++ "\n")],
       none)
    else
      (runWrites dump_json timestamp cfg channels subdirs respond,
       some (RunError.fetchError unfetched))

/-- Model of `fetch(output_config, channels, subdirs)` from `src/fetch-repodata.py`:
obtain the snapshot timestamp once, then dispatch and judge the run. -/
def fetch (dump_json : RDoc α → String) (net : String → Nat → Option Nat)
    (tz_offset_east : Nat) (cfg : OutputConfig) (channels subdirs : List String)
    (respond : String → String → Except String (HttpResponse α)) :
    List FileWrite × Option RunError :=
  match get_ntp_time net tz_offset_east with
  | Except.error e => ([], some (RunError.clock e))
  | Except.ok timestamp => fetchBody dump_json timestamp cfg channels subdirs respond

/-- A channel for which every collected outcome reported `success = false`
(vacuously, also a channel with no outcomes at all). -/
def allSubdirsFailed (results : List (Except WorkerErr WorkerResult)) (c : String) :
    Prop :=
  ∀ res : WorkerResult, Except.ok res ∈ results → res.channel = c → res.success = false

theorem mem_removeChannel (init : List String) (ch c : String) :
    c ∈ removeChannel init ch ↔ (c ∈ init ∧ c ≠ ch) := by
  simp [removeChannel, List.mem_filter]

theorem allSubdirsFailed_nil (c : String) : allSubdirsFailed [] c := by
  intro res hmem
  simp at hmem

theorem allSubdirsFailed_cons_ok (res : WorkerResult)
    (rest : List (Except WorkerErr WorkerResult)) (c : String) :
    allSubdirsFailed (Except.ok res :: rest) c ↔
      ((res.channel = c → res.success = false) ∧ allSubdirsFailed rest c) := by
  constructor
  · intro h
    exact ⟨h res (List.mem_cons_self _ _), fun r hr => h r (List.mem_cons_of_mem _ hr)⟩
  · rintro ⟨h1, h2⟩ r hr hc
    rcases List.mem_cons.mp hr with heq | hmem
    · injection heq with h3
      subst h3
      exact h1 hc
    · exact h2 r hmem hc

theorem allSubdirsFailed_of_all (results : List (Except WorkerErr WorkerResult))
    (c : String)
    (h : results.all (fun r =>
        match r with
        | Except.ok res => !(decide (res.channel = c)) || !res.success
        | Except.error _ => true) = true) :
    allSubdirsFailed results c := by
  intro res hmem hc
  have hres := List.all_eq_true.mp h _ hmem
  simp [hc] at hres
  exact hres

theorem processFutures_isOk (results : List (Except WorkerErr WorkerResult))
    (h : ∀ r ∈ results, r.isOk = true) :
    ∀ init, ∃ l, processFutures init results = Except.ok l := by
  induction results with
  | nil => exact fun init => ⟨init, rfl⟩
  | cons r rest ih =>
    intro init
    cases r with
    | error e =>
      have := h _ (List.mem_cons_self _ _)
      simp [Except.isOk, Except.toBool] at this
    | ok res =>
      exact ih (fun r hr => h r (List.mem_cons_of_mem _ hr)) _

theorem processFutures_mem (results : List (Except WorkerErr WorkerResult)) :
    ∀ init l, processFutures init results = Except.ok l →
      ∀ c, c ∈ l ↔ (c ∈ init ∧ allSubdirsFailed results c) := by
  induction results with
  | nil =>
    intro init l h c
    rw [processFutures] at h
    simp only [Except.ok.injEq] at h
    subst h
    simp [allSubdirsFailed_nil]
  | cons r rest ih =>
    intro init l h c
    cases r with
    | error e => rw [processFutures] at h; simp at h
    | ok res =>
      rw [processFutures] at h
      rw [allSubdirsFailed_cons_ok]
      cases hs : res.success with
      | false =>
        rw [hs, if_neg (by simp)] at h
        rw [ih init l h c]
        simp [hs]
      | true =>
        rw [hs, if_pos rfl] at h
        rw [ih _ l h c, mem_removeChannel]
        constructor
        · rintro ⟨⟨h1, h2⟩, h3⟩
          exact ⟨h1, fun hc => absurd hc.symm h2, h3⟩
        · rintro ⟨h1, h2, h3⟩
          exact ⟨⟨h1, fun hc => absurd (h2 hc.symm) (by decide)⟩, h3⟩

theorem fetch_repodata_time_write {dump_json : RDoc α → String} {timestamp : String}
    {cfg : OutputConfig} {channel subdir : String}
    {get_result : Except String (HttpResponse α)} {r : WorkerResult}
    (h : fetch_repodata dump_json timestamp cfg channel subdir get_result =
      Except.ok r)
    {p c : String} (hmem : FileWrite.time p c ∈ r.writes) :
    p = output_file_path cfg channel subdir ++ ".time" ∧ c = timestamp ++ "\n" := by
  obtain ⟨-, -, hshape⟩ := fetch_repodata_ok_shape h
  rcases hshape with ⟨-, hw⟩ | ⟨-, content, hw⟩ <;> rw [hw] at hmem
  · simp at hmem
  · simp only [List.mem_cons, List.not_mem_nil, or_false] at hmem
    rcases hmem with hmem | hmem
    · simp only [FileWrite.time.injEq] at hmem
      exact hmem
    · exact absurd hmem (by simp)

theorem runWrites_time_write {dump_json : RDoc α → String} {timestamp : String}
    {cfg : OutputConfig} {channels subdirs : List String}
    {respond : String → String → Except String (HttpResponse α)} {p c : String}
    (hmem : FileWrite.time p c ∈
      runWrites dump_json timestamp cfg channels subdirs respond) :
    (∃ ch sd, p = output_file_path cfg ch sd ++ ".time") ∧ c = timestamp ++ "\n" := by
  rw [runWrites, List.mem_flatten] at hmem
  obtain ⟨ws, hws, hmemw⟩ := hmem
  rw [List.mem_map] at hws
  obtain ⟨r, hr, hws2⟩ := hws
  subst hws2
  rw [runResults, List.mem_map] at hr
  obtain ⟨t, -, hr2⟩ := hr
  rcases r with e | res
  · simp [workerWrites1] at hmemw
  · rw [workerWrites1] at hmemw
    obtain ⟨hp, hc⟩ := fetch_repodata_time_write hr2 hmemw
    exact ⟨⟨t.1, t.2, hp⟩, hc⟩

theorem root_time_notin_runWrites (dump_json : RDoc α → String) (timestamp : String)
    (cfg : OutputConfig) (channels subdirs : List String)
    (respond : String → String → Except String (HttpResponse α)) (c : String) :
    FileWrite.time (cfg.output_root ++ "/.time") c ∉
      runWrites dump_json timestamp cfg channels subdirs respond := by
  intro hmem
  obtain ⟨⟨ch, sd, hp⟩, -⟩ := runWrites_time_write hmem
  rw [output_file_path] at hp
  have hlen := congrArg String.length hp
  have e1 : ("/.time" : String).length = 6 := rfl
  have e2 : ("/" : String).length = 1 := rfl
  have e3 : ("/repodata.json" : String).length = 14 := rfl
  have e4 : (".time" : String).length = 5 := rfl
  simp only [String.length_append, e1, e2, e3, e4] at hlen
  omega

/-- C1: provided the clock succeeded and every worker task completed without
raising, the orchestrator raises `FetchError` if and only if some channel had
`success = false` for every one of its outcomes, and the raised error names
exactly those channels.  The judgment is made only after all outcomes are
collected (`processFutures` consumes the whole result list first). -/
theorem c1_completeness_invariant (dump_json : RDoc α → String)
    (net : String → Nat → Option Nat) (tz : Nat) (cfg : OutputConfig)
    (channels subdirs : List String)
    (respond : String → String → Except String (HttpResponse α)) (ts : String)
    (hts : get_ntp_time net tz = Except.ok ts)
    (hok : ∀ r ∈ runResults dump_json ts cfg channels subdirs respond, r.isOk = true) :
    ((∃ l, (fetch dump_json net tz cfg channels subdirs respond).2 =
        some (RunError.fetchError l)) ↔
      ∃ c ∈ channels,
        allSubdirsFailed (runResults dump_json ts cfg channels subdirs respond) c) ∧
    (∀ l, (fetch dump_json net tz cfg channels subdirs respond).2 =
        some (RunError.fetchError l) →
      ∀ c, c ∈ l ↔ (c ∈ channels ∧
        allSubdirsFailed (runResults dump_json ts cfg channels subdirs respond) c)) := by
  obtain ⟨l, hl⟩ := processFutures_isOk _ hok channels.dedup
  have hmem := processFutures_mem _ channels.dedup l hl
  have hfetch : fetch dump_json net tz cfg channels subdirs respond =
      fetchBody dump_json ts cfg channels subdirs respond := by
    rw [fetch, hts]
  rw [hfetch, fetchBody, hl]
  simp only []
  by_cases h0 : l = []
  · rw [if_pos h0]
    refine ⟨⟨?_, ?_⟩, ?_⟩
    · rintro ⟨l', hl'⟩
      simp at hl'
    · rintro ⟨c, hc, hasf⟩
      exfalso
      have hcl : c ∈ l := (hmem c).mpr ⟨List.mem_dedup.mpr hc, hasf⟩
      rw [h0] at hcl
      simp at hcl
    · intro l' hl'
      simp at hl'
  · rw [if_neg h0]
    refine ⟨⟨?_, ?_⟩, ?_⟩
    · intro _
      obtain ⟨c, hc⟩ := List.exists_mem_of_ne_nil l h0
      obtain ⟨hcd, hasf⟩ := (hmem c).mp hc
      exact ⟨c, List.mem_dedup.mp hcd, hasf⟩
    · intro _
      exact ⟨l, rfl⟩
    · intro l' hl'
      simp only [Option.some.injEq, RunError.fetchError.injEq] at hl'
      subst hl'
      intro c
      rw [hmem c, List.mem_dedup]

/-- All reference servers answer immediately with epoch 0. -/
def netAll0 : String → Nat → Option Nat := fun _ _ => some 0

/-- Every target responds 404. -/
def respond404 : String → String → Except String (HttpResponse String) :=
  fun _ _ => Except.ok ⟨404, Except.ok []⟩

/-- Every target responds 200 with an empty document. -/
def respond200 : String → String → Except String (HttpResponse String) :=
  fun _ _ => Except.ok ⟨200, Except.ok []⟩

/-- Channel `A` responds 200, every other channel 404. -/
def respondAor404 : String → String → Except String (HttpResponse String) :=
  fun channel _ =>
    if channel = "A" then Except.ok ⟨200, Except.ok []⟩
    else Except.ok ⟨404, Except.ok []⟩

theorem c1_completeness_invariant_witness :
    ∃ l, (fetch (fun _ : RDoc String => "J") netAll0 0 ⟨"out", 0, (",", ":"), ["md5"]⟩
        ["A", "B"] ["noarch"] respondAor404).2 = some (RunError.fetchError l) :=
  (c1_completeness_invariant (fun _ : RDoc String => "J") netAll0 0
      ⟨"out", 0, (",", ":"), ["md5"]⟩ ["A", "B"] ["noarch"] respondAor404
      "1970-01-01T00:00:00+00:00" (by decide) (by decide)).1.mpr
    ⟨"B", by decide, allSubdirsFailed_of_all _ _ (by decide)⟩

/-- C5: whenever the run aborts with any error — a worker exception, the
completeness `FetchError`, or a clock failure — the run-level
`{output_root}/.time` file is not among the files written. -/
theorem c5_root_time_only_on_success (dump_json : RDoc α → String)
    (net : String → Nat → Option Nat) (tz : Nat) (cfg : OutputConfig)
    (channels subdirs : List String)
    (respond : String → String → Except String (HttpResponse α)) (e : RunError)
    (h : (fetch dump_json net tz cfg channels subdirs respond).2 = some e) :
    ∀ c, FileWrite.time (cfg.output_root ++ "/.time") c ∉
      (fetch dump_json net tz cfg channels subdirs respond).1 := by
  intro c hmem
  rw [fetch] at hmem h
  rcases hg : get_ntp_time net tz with msg | ts <;> rw [hg] at hmem h <;>
    simp only [] at hmem h
  · simp at hmem
  · rw [fetchBody] at hmem h
    rcases hpf : processFutures channels.dedup
        (runResults dump_json ts cfg channels subdirs respond) with e2 | l <;>
      rw [hpf] at hmem h <;> simp only [] at hmem h
    · exact root_time_notin_runWrites _ _ _ _ _ _ _ hmem
    · by_cases h0 : l = []
      · rw [if_pos h0] at h
        simp at h
      · rw [if_neg h0] at hmem
        exact root_time_notin_runWrites _ _ _ _ _ _ _ hmem

theorem c5_root_time_only_on_success_witness :
    FileWrite.time ("out" ++ "/.time") "x" ∉
      (fetch (fun _ : RDoc String => "J") netAll0 0 ⟨"out", 0, (",", ":"), ["md5"]⟩
        ["B"] ["noarch"] respond404).1 :=
  c5_root_time_only_on_success (fun _ : RDoc String => "J") netAll0 0
    ⟨"out", 0, (",", ":"), ["md5"]⟩ ["B"] ["noarch"] respond404
    (RunError.fetchError ["B"]) (by decide) "x"

/-- C6: the snapshot timestamp is obtained exactly once, before any task is
dispatched, and every timestamp file written during the run — each per-target
`repodata.json.time` companion and the run-level `.time` file — carries
verbatim the same content, the snapshot timestamp followed by `print`'s
newline. -/
theorem c6_uniform_timestamp (dump_json : RDoc α → String)
    (net : String → Nat → Option Nat) (tz : Nat) (cfg : OutputConfig)
    (channels subdirs : List String)
    (respond : String → String → Except String (HttpResponse α)) (ts : String)
    (hts : get_ntp_time net tz = Except.ok ts) :
    ∀ p c, FileWrite.time p c ∈
        (fetch dump_json net tz cfg channels subdirs respond).1 →
      c = ts ++ "\n" := by
  intro p c hmem
  rw [fetch, hts] at hmem
  simp only [] at hmem
  rw [fetchBody] at hmem
  rcases hpf : processFutures channels.dedup
      (runResults dump_json ts cfg channels subdirs respond) with e2 | l <;>
    rw [hpf] at hmem <;> simp only [] at hmem
  · exact (runWrites_time_write hmem).2
  · by_cases h0 : l = []
    · rw [if_pos h0] at hmem
      rcases List.mem_append.mp hmem with hm | hm
      · exact (runWrites_time_write hm).2
      · simp only [List.mem_cons, List.not_mem_nil, or_false,
          FileWrite.time.injEq] at hm
        exact hm.2
    · rw [if_neg h0] at hmem
      exact (runWrites_time_write hmem).2

theorem c6_uniform_timestamp_witness :
    ("1970-01-01T00:00:00+00:00\n" : String) =
      "1970-01-01T00:00:00+00:00" ++ "\n" :=
  c6_uniform_timestamp (fun _ : RDoc String => "J") netAll0 0
    ⟨"out", 0, (",", ":"), ["md5"]⟩ ["A"] ["noarch"] respond200
    "1970-01-01T00:00:00+00:00" (by decide) ("out" ++ "/.time")
    "1970-01-01T00:00:00+00:00\n" (by decide)

end FetchRepodata
